import Mathlib

/-!
The persistence layer of shopplace.

A shallow embedding of `getting-started/shopplace`: the `Shop` record
(`shop.go`), the in-memory backend (`db_memory.go`), the document-store
backend (`db_mongo.go`) and the managed-datastore backend
(`db_datastore.go`), followed by theorems about their behaviour.

Go values are embedded as follows.

* `string` is a sequence of bytes (`GoString`); `==` is equality of the byte
  sequences and `<` is the byte-wise lexicographic order (`strLess`).
* `int64` is an `Int`; the places where the code does arithmetic on it
  (`db.nextID++`, `n.Int64() + 1`) wrap explicitly (`wrapInt64`).
* `*Shop` is an address (`Ptr`) into a heap of `Shop` objects (`Heap`), so
  that the aliasing between the caller's shop and the stored one is kept.
* `map[int64]*Shop` is an association list with distinct keys; the nil map
  (after `Close`) is `none`.
* `(T, error)` is a `Res`: a value, an error, or a run-time panic.
* A method that writes the receiver returns the receiver after the call next
  to what the call returns (and the heap after the call, when it writes the
  caller's object), whether the call succeeds or not.
-/

namespace shopplace

/-! ## Strings -/

/-- A Go string: an immutable sequence of bytes. -/
abbrev GoString := List (Fin 256)

/-- The bytes of a string literal (its UTF-8 encoding). -/
def str (s : String) : GoString :=
  (s.toList.flatMap String.utf8EncodeChar).map (fun b => b.val)

/-- Go's `<` on strings: byte-wise lexicographic comparison, a proper prefix
being smaller. -/
def strLess : GoString → GoString → Bool
  | [], [] => false
  | [], _ :: _ => true
  | _ :: _, [] => false
  | a :: as, b :: bs =>
    if a < b then true else if b < a then false else strLess as bs

/-! ## shop.go -/

/-- Shop holds metadata about a shop. -/
structure Shop where
  ID : Int
  Title : GoString
  Author : GoString
  PublishedDate : GoString
  ImageURL : GoString
  Description : GoString
  CreatedBy : GoString
  CreatedByID : GoString
deriving DecidableEq, Repr

/-- The zero value of `Shop` (what `&Shop{}` points to). -/
def Shop.zero : Shop := ⟨0, [], [], [], [], [], [], []⟩

/-- CreatedByDisplayName returns a string appropriate for displaying the name
of the user who created this shop object. -/
def Shop.CreatedByDisplayName (b : Shop) : GoString :=
  if b.CreatedByID = str "anonymous" then str "Anonymous" else b.CreatedBy

/-- SetCreatorAnonymous sets the CreatedByID field to the "anonymous" ID. -/
def Shop.SetCreatorAnonymous (b : Shop) : Shop :=
  { b with CreatedBy := str "", CreatedByID := str "anonymous" }

/-! ## Pointers, results -/

/-- The address of a `Shop` object (a non-nil `*Shop`). -/
abbrev Ptr := Nat

/-- The `Shop` objects reachable through pointers. -/
abbrev Heap := Ptr → Shop

/-- The heap after the object at `p` has been overwritten with `v`. -/
def Heap.set (h : Heap) (p : Ptr) (v : Shop) : Heap :=
  fun q => if q = p then v else h q

/-- The errors of the datastore client library that the model produces. -/
inductive StoreErr where
  /-- `datastore.ErrNoSuchEntity` -/
  | noSuchEntity
  /-- `datastore.ErrInvalidKey` -/
  | invalidKey
  /-- The query names a filter or an order the model does not know. -/
  | badQuery
  /-- The error of `rand.Reader`. -/
  | randReader
  /-- An error of the collection's `Insert` (a lost connection, a rejected
  document). -/
  | mgoInsert
deriving DecidableEq, Repr

/-- The errors the backends construct, one constructor per place in the code. -/
inductive DBError where
  /-- `memorydb: shop not found with ID %d` -/
  | memNotFound (id : Int)
  /-- `memorydb: shop with unassigned ID passed into deleteShop` -/
  | memDeleteUnassigned
  /-- `memorydb: could not delete shop with ID %d, does not exist` -/
  | memDeleteMissing (id : Int)
  /-- `memorydb: shop with unassigned ID passed into updateShop` -/
  | memUpdateUnassigned
  /-- `mgo.ErrNotFound`, returned by the collection as it is. -/
  | mgoErrNotFound
  /-- `mongodb: could not assign an new ID: %v` -/
  | mongoAssignID (e : StoreErr)
  /-- `mongodb: could not add shop: %v` -/
  | mongoAdd (e : StoreErr)
  /-- `datastoredb: could not get Shop: %v` -/
  | dsGet (e : StoreErr)
  /-- `datastoredb: could not put Shop: %v` -/
  | dsPut (e : StoreErr)
  /-- `datastoredb: could not delete Shop: %v` -/
  | dsDelete (e : StoreErr)
  /-- `datastoredb: could not update Shop: %v` -/
  | dsUpdate (e : StoreErr)
  /-- `datastoredb: could not list shops: %v` -/
  | dsList (e : StoreErr)
deriving DecidableEq, Repr

/-- The outcome of a call: it returns a value with a nil error, returns a
non-nil error, or panics at run time. -/
inductive Res (ε α : Type) where
  | ok (a : α)
  | error (e : ε)
  | panic
deriving DecidableEq, Repr

/-- Whether the call returned a non-nil error. -/
def Res.isError {ε α : Type} : Res ε α → Bool
  | .error _ => true
  | _ => false

/-- Whether the call returned with a nil error. -/
def Res.isOk {ε α : Type} : Res ε α → Bool
  | .ok _ => true
  | _ => false

/-- The shop that a returned pointer points to, in the given heap. -/
def Res.deref {ε : Type} (r : Res ε Ptr) (heap : Heap) : Res ε Shop :=
  match r with
  | .ok p => .ok (heap p)
  | .error e => .error e
  | .panic => .panic

/-- The int64 that a mathematical integer wraps to (two's complement). -/
def wrapInt64 (x : Int) : Int :=
  (x + 2 ^ 63) % 2 ^ 64 - 2 ^ 63

/-! ## db_memory.go -/

/-- A non-nil `map[int64]*Shop`. -/
abbrev ShopMap := AList (fun _ : Int => Ptr)

/-- memoryDB is a simple in-memory persistence layer for shops. The mutex is
not part of the state: every method holds it from start to end. -/
structure memoryDB where
  /-- next ID to assign to a shop. -/
  nextID : Int
  /-- maps from Shop ID to Shop; `none` is the nil map. -/
  shops : Option ShopMap
deriving DecidableEq

def newMemoryDB : memoryDB :=
  { shops := some ∅, nextID := 1 }

/-- Close closes the database. -/
def memoryDB.Close (db : memoryDB) : memoryDB :=
  { db with shops := none }

/-- The map index expression `db.shops[id]` with its `ok` flag; indexing a
nil map finds nothing. -/
def memoryDB.index (db : memoryDB) (id : Int) : Option Ptr :=
  match db.shops with
  | none => none
  | some m => m.lookup id

/-- GetShop retrieves a shop by its ID. -/
def memoryDB.GetShop (db : memoryDB) (id : Int) : Res DBError Ptr :=
  match db.index id with
  | none => .error (.memNotFound id)
  | some shop => .ok shop

/-- AddShop saves a given shop, assigning it a new ID. The caller's object is
written (`b.ID = db.nextID`) and the map keeps the caller's pointer. Assigning
to an entry of a nil map panics. The result is what the call returns, the
backend after the call and the heap after the call. -/
def memoryDB.AddShop (db : memoryDB) (heap : Heap) (b : Ptr) :
    Res DBError Int × memoryDB × Heap :=
  let heap1 := heap.set b { heap b with ID := db.nextID }
  match db.shops with
  | none => (.panic, db, heap1)
  | some m =>
    let db1 := { db with shops := some (m.insert (heap1 b).ID b) }
    let db2 := { db1 with nextID := wrapInt64 (db1.nextID + 1) }
    (.ok (heap1 b).ID, db2, heap1)

/-- DeleteShop removes a given shop by its ID. The result is what the call
returns and the backend after the call. -/
def memoryDB.DeleteShop (db : memoryDB) (id : Int) : Res DBError Unit × memoryDB :=
  if id = 0 then (.error .memDeleteUnassigned, db)
  else
    match db.index id with
    | none => (.error (.memDeleteMissing id), db)
    | some _ => (.ok (), { db with shops := db.shops.map (fun m => m.erase id) })

/-- UpdateShop updates the entry for a given shop. The result is what the
call returns and the backend after the call. -/
def memoryDB.UpdateShop (db : memoryDB) (heap : Heap) (b : Ptr) :
    Res DBError Unit × memoryDB :=
  if (heap b).ID = 0 then (.error .memUpdateUnassigned, db)
  else
    match db.shops with
    | none => (.panic, db)
    | some m => (.ok (), { db with shops := some (m.insert (heap b).ID b) })

/-- The method `shopsByTitle.Less`, on the two shops compared. -/
def shopsByTitle.Less (heap : Heap) (p q : Ptr) : Bool :=
  strLess (heap p).Title (heap q).Title

/-- The library call `sort.Sort` on a slice whose `Less` is `less`: the same
elements, rearranged so that no element is `less` than one before it. The
library promises no order among elements that compare equal; the model keeps
them in the order of the input (insertion sort). -/
def sortSort {α : Type} (less : α → α → Bool) (l : List α) : List α :=
  l.insertionSort (fun a b => less b a = false)

/-- The entries of `db.shops`; a nil map has none. -/
def memoryDB.entries (db : memoryDB) : List (Σ _ : Int, Ptr) :=
  match db.shops with
  | none => []
  | some m => m.entries

/-- The shop at `p` is stored under `id`. -/
def memoryDB.stored (db : memoryDB) (id : Int) (p : Ptr) : Prop :=
  (⟨id, p⟩ : Σ _ : Int, Ptr) ∈ db.entries

instance (db : memoryDB) (id : Int) (p : Ptr) : Decidable (db.stored id p) :=
  inferInstanceAs (Decidable ((⟨id, p⟩ : Σ _ : Int, Ptr) ∈ db.entries))

/-- The values met by `for _, b := range db.shops`. Go leaves the order of the
iteration open; the model visits the entries in the order of the association
list. Ranging over a nil map visits nothing. -/
def memoryDB.range (db : memoryDB) : List Ptr :=
  db.entries.map (fun e => e.2)

/-- ListShops returns a list of shops, ordered by title. -/
def memoryDB.ListShops (db : memoryDB) (heap : Heap) : Res DBError (List Ptr) :=
  .ok (sortSort (shopsByTitle.Less heap) db.range)

/-- ListShopsCreatedBy returns a list of shops, ordered by title, filtered by
the user who created the shop entry. -/
def memoryDB.ListShopsCreatedBy (db : memoryDB) (heap : Heap) (userID : GoString) :
    Res DBError (List Ptr) :=
  if userID = str "" then db.ListShops heap
  else
    .ok (sortSort (shopsByTitle.Less heap)
      (db.range.filter (fun b => (heap b).CreatedByID = userID)))

/-! ## db_mongo.go

The collection is modelled from the documentation of `gopkg.in/mgo.v2`, on a
server that is reachable: the documents in their natural order, each the BSON
image of a `Shop` (field names are the lower-cased Go names). The outcome of
`Insert` in AddShop is a parameter of the call. -/

/-- A query document: nil, `bson.D{{Name: "id", Value: v}}` or
`bson.D{{Name: "createdbyid", Value: v}}`. -/
inductive Selector where
  | all
  | id (v : Int)
  | createdbyid (v : GoString)
deriving DecidableEq, Repr

/-- Whether a document matches a query document. -/
def Selector.sat : Selector → Shop → Bool
  | .all, _ => true
  | .id v, d => d.ID = v
  | .createdbyid v, d => d.CreatedByID = v

/-- The library call `Find(sel).One(b)`: the first matching document. -/
def mgo.One (c : List Shop) (sel : Selector) : Except DBError Shop :=
  match c.find? sel.sat with
  | none => .error .mgoErrNotFound
  | some d => .ok d

/-- The library call `Remove(sel)`: removes the first matching document. -/
def mgo.Remove : List Shop → Selector → Except DBError (List Shop)
  | [], _ => .error .mgoErrNotFound
  | d :: c, sel =>
    if sel.sat d then .ok c
    else
      match mgo.Remove c sel with
      | .ok c1 => .ok (d :: c1)
      | .error e => .error e

/-- The library call `Update(sel, doc)`: replaces the first matching
document. -/
def mgo.Update : List Shop → Selector → Shop → Except DBError (List Shop)
  | [], _, _ => .error .mgoErrNotFound
  | d :: c, sel, doc =>
    if sel.sat d then .ok (doc :: c)
    else
      match mgo.Update c sel doc with
      | .ok c1 => .ok (d :: c1)
      | .error e => .error e

/-- The library call `Find(sel).Sort("title").All(&result)`. -/
def mgo.SortTitleAll (c : List Shop) (sel : Selector) : List Shop :=
  sortSort (fun a b => strLess a.Title b.Title) (c.filter sel.sat)

/-- The document-store backend: the collection `shopplace.shops`. -/
structure mongoDB where
  c : List Shop
deriving DecidableEq, Repr

/-- GetShop retrieves a shop by its ID. -/
def mongoDB.GetShop (db : mongoDB) (id : Int) : Res DBError Shop :=
  match mgo.One db.c (.id id) with
  | .error e => .error e
  | .ok b => .ok b

def maxRand : Int := 2 ^ 63 - 1

/-- randomID returns a positive number that fits within an int64. The
argument is what `rand.Int(rand.Reader, maxRand)` delivered: an error, or a
number in the range [0, maxRand). The result is the Go pair `(int64, error)`. -/
def randomID (r : Except StoreErr Int) : Int × Option StoreErr :=
  match r with
  | .error e => (0, some e)
  | .ok n => (wrapInt64 (wrapInt64 n + 1), none)

/-- AddShop saves a given shop, assigning it a new ID. The caller's object is
written (`b.ID = id`) once an ID has been drawn, before the insertion. The
argument `r` is what `rand.Int` delivered and `ins` is what `db.c.Insert(b)`
returned: nil (`none`) or an error. When `Insert` fails the call returns the
error, with `b.ID` already written. The result is what the call returns, the
backend after the call and the heap after the call. -/
def mongoDB.AddShop (db : mongoDB) (heap : Heap) (b : Ptr) (r : Except StoreErr Int)
    (ins : Option StoreErr) : Res DBError Int × mongoDB × Heap :=
  match randomID r with
  | (_, some e) => (.error (.mongoAssignID e), db, heap)
  | (id, none) =>
    let heap1 := heap.set b { heap b with ID := id }
    match ins with
    | some e => (.error (.mongoAdd e), db, heap1)
    | none => (.ok id, { c := db.c ++ [heap1 b] }, heap1)

/-- DeleteShop removes a given shop by its ID. -/
def mongoDB.DeleteShop (db : mongoDB) (id : Int) : Res DBError mongoDB :=
  match mgo.Remove db.c (.id id) with
  | .ok c1 => .ok { c := c1 }
  | .error e => .error e

/-- UpdateShop updates the entry for a given shop. -/
def mongoDB.UpdateShop (db : mongoDB) (b : Shop) : Res DBError mongoDB :=
  match mgo.Update db.c (.id b.ID) b with
  | .ok c1 => .ok { c := c1 }
  | .error e => .error e

/-- ListShops returns a list of shops, ordered by title. -/
def mongoDB.ListShops (db : mongoDB) : Res DBError (List Shop) :=
  .ok (mgo.SortTitleAll db.c .all)

/-- ListShopsCreatedBy returns a list of shops, ordered by title, filtered by
the user who created the shop entry. -/
def mongoDB.ListShopsCreatedBy (db : mongoDB) (userID : GoString) : Res DBError (List Shop) :=
  .ok (mgo.SortTitleAll db.c (.createdbyid userID))

/-! ## db_datastore.go

The client is modelled from the documentation of `cloud.google.com/go/datastore`,
on a service that is reachable: the entities with their complete keys. -/

/-- A datastore key without ancestors: kind, string ID, integer ID. -/
structure Key where
  kind : String
  name : String
  id : Int
deriving DecidableEq, Repr

def datastore.NewKey (kind name : String) (id : Int) : Key :=
  ⟨kind, name, id⟩

/-- NewIncompleteKey is `NewKey` with a zero string ID and a zero integer ID. -/
def datastore.NewIncompleteKey (kind : String) : Key :=
  datastore.NewKey kind "" 0

/-- A key is incomplete when it has neither a string ID nor an integer ID. -/
def Key.Incomplete (k : Key) : Bool :=
  k.name = "" && k.id = 0

/-- A query: its kind, its filters (`"Property op"` and value) and orders. -/
structure Query where
  kind : String
  filters : List (String × GoString)
  orders : List String
deriving DecidableEq, Repr

def datastore.NewQuery (kind : String) : Query :=
  ⟨kind, [], []⟩

def Query.Filter (q : Query) (filterStr : String) (value : GoString) : Query :=
  { q with filters := q.filters ++ [(filterStr, value)] }

def Query.Order (q : Query) (fieldName : String) : Query :=
  { q with orders := q.orders ++ [fieldName] }

/-- The entities the service holds, each under a complete key. -/
abbrev Client := List (Key × Shop)

/-- The integer ID the service gives to an entity put under an incomplete key:
here one more than the largest ID in use (the service promises only an unused,
non-zero ID). -/
def Client.allocate (c : Client) : Int :=
  c.foldl (fun m e => max m e.1.id) 0 + 1

/-- The library call `Get`. -/
def Client.Get (c : Client) (k : Key) : Except StoreErr Shop :=
  if k.Incomplete then .error .invalidKey
  else
    match c.find? (fun e => e.1 = k) with
    | none => .error .noSuchEntity
    | some e => .ok e.2

/-- The library call `Put`: under an incomplete key the entity is inserted
with an allocated ID, under a complete key it is inserted or overwritten. The
key of the entity is returned. -/
def Client.Put (c : Client) (k : Key) (src : Shop) : Except StoreErr (Key × Client) :=
  if k.Incomplete then
    let k1 := { k with id := c.allocate }
    .ok (k1, c ++ [(k1, src)])
  else
    .ok (k, c.filter (fun e => e.1 ≠ k) ++ [(k, src)])

/-- The library call `Delete`; deleting an absent entity is not an error. -/
def Client.Delete (c : Client) (k : Key) : Except StoreErr Client :=
  if k.Incomplete then .error .invalidKey
  else .ok (c.filter (fun e => e.1 ≠ k))

/-- Whether an entity passes a filter of the query; the model knows the
filter `"CreatedByID ="`. -/
def Query.passes (f : String × GoString) (e : Key × Shop) : Option Bool :=
  if f.1 = "CreatedByID =" then some (e.2.CreatedByID = f.2) else none

/-- The library call `GetAll`: the keys and the entities of the kind that
pass every filter, in the order asked for; the model knows the order
`"Title"`. -/
def Client.GetAll (c : Client) (q : Query) : Except StoreErr (List Key × List Shop) :=
  if q.orders ≠ ["Title"] ∨ q.filters.any (fun f => f.1 ≠ "CreatedByID =") then
    .error .badQuery
  else
    let found := c.filter (fun e => e.1.kind = q.kind ∧
      q.filters.all (fun f => Query.passes f e = some true))
    let sorted := sortSort (fun a b => strLess a.2.Title b.2.Title) found
    .ok (sorted.map (fun e => e.1), sorted.map (fun e => e.2))

/-- The loop `for i, k := range keys { shops[i].ID = k.ID() }`; an index past
the end of `shops` panics (`none`). -/
def setIDs : List Key → List Shop → Option (List Shop)
  | [], shops => some shops
  | _ :: _, [] => none
  | k :: keys, b :: shops =>
    match setIDs keys shops with
    | none => none
    | some rest => some ({ b with ID := k.id } :: rest)

/-- datastoreDB persists shops to Cloud Datastore. -/
structure datastoreDB where
  client : Client
deriving DecidableEq, Repr

def datastoreDB.datastoreKey (id : Int) : Key :=
  datastore.NewKey "Shop" "" id

/-- GetShop retrieves a shop by its ID. -/
def datastoreDB.GetShop (db : datastoreDB) (id : Int) : Res DBError Shop :=
  let k := datastoreDB.datastoreKey id
  match db.client.Get k with
  | .error e => .error (.dsGet e)
  | .ok shop => .ok { shop with ID := id }

/-- AddShop saves a given shop, assigning it a new ID. The caller's object is
read, not written. -/
def datastoreDB.AddShop (db : datastoreDB) (b : Shop) : Res DBError (Int × datastoreDB) :=
  let k := datastore.NewIncompleteKey "Shop"
  match db.client.Put k b with
  | .error e => .error (.dsPut e)
  | .ok (k1, c1) => .ok (k1.id, { client := c1 })

/-- The call `db.AddShop(b)` of the managed-datastore backend with the
caller's pointer: `Put` saves the object at `b`, which it reads, and the
method assigns to no field of `b`. The result is what the call returns, the
backend after the call and the heap after the call. -/
def datastoreDB.AddShopAt (db : datastoreDB) (heap : Heap) (b : Ptr) :
    Res DBError Int × datastoreDB × Heap :=
  match db.AddShop (heap b) with
  | .ok (id, db1) => (.ok id, db1, heap)
  | .error e => (.error e, db, heap)
  | .panic => (.panic, db, heap)

/-- DeleteShop removes a given shop by its ID. -/
def datastoreDB.DeleteShop (db : datastoreDB) (id : Int) : Res DBError datastoreDB :=
  let k := datastoreDB.datastoreKey id
  match db.client.Delete k with
  | .error e => .error (.dsDelete e)
  | .ok c1 => .ok { client := c1 }

/-- UpdateShop updates the entry for a given shop. -/
def datastoreDB.UpdateShop (db : datastoreDB) (b : Shop) : Res DBError datastoreDB :=
  let k := datastoreDB.datastoreKey b.ID
  match db.client.Put k b with
  | .error e => .error (.dsUpdate e)
  | .ok (_, c1) => .ok { client := c1 }

/-- ListShops returns a list of shops, ordered by title. -/
def datastoreDB.ListShops (db : datastoreDB) : Res DBError (List Shop) :=
  let q := (datastore.NewQuery "Shop").Order "Title"
  match db.client.GetAll q with
  | .error e => .error (.dsList e)
  | .ok (keys, shops) =>
    match setIDs keys shops with
    | none => .panic
    | some shops1 => .ok shops1

/-- ListShopsCreatedBy returns a list of shops, ordered by title, filtered by
the user who created the shop entry. -/
def datastoreDB.ListShopsCreatedBy (db : datastoreDB) (userID : GoString) :
    Res DBError (List Shop) :=
  if userID = str "" then db.ListShops
  else
    let q := ((datastore.NewQuery "Shop").Filter "CreatedByID =" userID).Order "Title"
    match db.client.GetAll q with
    | .error e => .error (.dsList e)
    | .ok (keys, shops) =>
      match setIDs keys shops with
      | none => .panic
      | some shops1 => .ok shops1

/-! ## Sequences of calls -/

/-- The backends reached from a fresh instance by a sequence of AddShop,
UpdateShop and DeleteShop calls, together with the identifiers that the
AddShop calls returned, in the order of the calls. The caller passes any shop
it likes, in a heap it may have changed between the calls. GetShop and the
list calls do not write the backend, so interleaving them reaches nothing
more. -/
inductive memoryDB.Reach : List Int → memoryDB → Prop where
  | fresh : memoryDB.Reach [] newMemoryDB
  | add (ids : List Int) (db : memoryDB) (heap : Heap) (b : Ptr) (id : Int) :
      memoryDB.Reach ids db → (db.AddShop heap b).1 = .ok id →
      memoryDB.Reach (ids ++ [id]) (db.AddShop heap b).2.1
  | update (ids : List Int) (db : memoryDB) (heap : Heap) (b : Ptr) :
      memoryDB.Reach ids db → memoryDB.Reach ids (db.UpdateShop heap b).2
  | delete (ids : List Int) (db : memoryDB) (id : Int) :
      memoryDB.Reach ids db → memoryDB.Reach ids (db.DeleteShop id).2

/-- The backends reached as in `memoryDB.Reach`, by sequences in which every
UpdateShop is of a shop whose ID an earlier AddShop returned. -/
inductive memoryDB.ReachAssigned : List Int → memoryDB → Prop where
  | fresh : memoryDB.ReachAssigned [] newMemoryDB
  | add (ids : List Int) (db : memoryDB) (heap : Heap) (b : Ptr) (id : Int) :
      memoryDB.ReachAssigned ids db → (db.AddShop heap b).1 = .ok id →
      memoryDB.ReachAssigned (ids ++ [id]) (db.AddShop heap b).2.1
  | update (ids : List Int) (db : memoryDB) (heap : Heap) (b : Ptr) :
      memoryDB.ReachAssigned ids db → (heap b).ID ∈ ids →
      memoryDB.ReachAssigned ids (db.UpdateShop heap b).2
  | delete (ids : List Int) (db : memoryDB) (id : Int) :
      memoryDB.ReachAssigned ids db → memoryDB.ReachAssigned ids (db.DeleteShop id).2

/-! ## Scenarios -/

/-- A database holding the shop at address 0 under the identifier 1. -/
def dbOne : memoryDB :=
  { nextID := 2, shops := some (AList.insert 1 0 ∅) }

/-- A database holding the shops at the addresses 0 and 1 under the
identifiers 1 and 2. -/
def dbTwo : memoryDB :=
  { nextID := 3, shops := some (AList.insert 2 1 (AList.insert 1 0 ∅)) }

/-- A heap of zero-valued shops, except a shop with identifier 1 at address 0. -/
def heapOne : Heap :=
  fun p => if p = 0 then { Shop.zero with ID := 1, Description := str "newdesc" } else Shop.zero

/-- A fresh backend after UpdateShop of the shop at address 0 of `heapOne`,
whose ID is 1: no AddShop has been called yet. -/
def dbUpdated : memoryDB :=
  (newMemoryDB.UpdateShop heapOne 0).2

/-- Three shops, titled Zeta, Alpha and Mu, at the addresses 0, 1 and 2. -/
def heapZAM : Heap :=
  fun p =>
    if p = 0 then { Shop.zero with Title := str "Zeta" }
    else if p = 1 then { Shop.zero with Title := str "Alpha" }
    else if p = 2 then { Shop.zero with Title := str "Mu" }
    else Shop.zero

/-- Two shops at the addresses 0 and 1: X created by u1, Y created by u2. -/
def heapXY : Heap :=
  fun p =>
    if p = 0 then { Shop.zero with Title := str "X", CreatedByID := str "u1" }
    else if p = 1 then { Shop.zero with Title := str "Y", CreatedByID := str "u2" }
    else Shop.zero

/-- A shop that carries the unassigned identifier 0. -/
def shopUnassigned : Shop :=
  { Shop.zero with Title := str "t" }

/-- A shop with identifier 7, created by u1. -/
def shopU1 : Shop :=
  { Shop.zero with ID := 7, Title := str "X", CreatedByID := str "u1" }

/-! ## The order of strings -/

theorem strLess_irrefl (a : GoString) : strLess a a = false := by
  induction a with
  | nil => rfl
  | cons x xs ih => simp [strLess, ih]

/-- The comparison `strLess` is the lexicographic order of the bytes. -/
theorem strLess_iff_lex : ∀ a b : GoString, strLess a b = true ↔ List.Lex (· < ·) a b
  | [], [] => by simp [strLess]
  | [], _ :: _ => by simp [strLess, List.Lex.nil]
  | _ :: _, [] => by simp [strLess]
  | x :: xs, y :: ys => by
    simp only [strLess]
    rcases lt_trichotomy x y with hxy | hxy | hxy
    · rw [if_pos hxy]
      exact ⟨fun _ => List.Lex.rel hxy, fun _ => rfl⟩
    · subst hxy
      rw [if_neg (lt_irrefl x), if_neg (lt_irrefl x), strLess_iff_lex xs ys]
      constructor
      · exact fun h => List.Lex.cons h
      · intro h
        cases h with
        | cons h1 => exact h1
        | rel h1 => exact absurd h1 (lt_irrefl x)
    · rw [if_neg (not_lt_of_lt hxy), if_pos hxy]
      constructor
      · intro h
        exact absurd h (by decide)
      · intro h
        cases h with
        | cons _ => exact absurd hxy (lt_irrefl x)
        | rel h1 => exact absurd h1 (not_lt_of_lt hxy)

theorem strLess_asymm : ∀ a b : GoString, strLess a b = true → strLess b a = false
  | [], [], _ => rfl
  | [], _ :: _, _ => rfl
  | _ :: _, [], h => by simp [strLess] at h
  | x :: xs, y :: ys, h => by
    simp only [strLess] at h ⊢
    rcases lt_trichotomy x y with hxy | hxy | hxy
    · rw [if_neg (not_lt_of_lt hxy), if_pos hxy]
    · subst hxy
      rw [if_neg (lt_irrefl x), if_neg (lt_irrefl x)] at h ⊢
      exact strLess_asymm xs ys h
    · rw [if_neg (not_lt_of_lt hxy), if_pos hxy] at h
      exact absurd h (by decide)

/-- The order `≤` that `strLess` induces is transitive. -/
theorem strLess_false_trans :
    ∀ a b c : GoString, strLess b a = false → strLess c b = false → strLess c a = false
  | [], _, [], _, _ => rfl
  | _ :: _, [], [], h1, _ => by simp [strLess] at h1
  | _ :: _, _ :: _, [], _, h2 => by simp [strLess] at h2
  | [], _, _ :: _, _, _ => rfl
  | _ :: _, [], _ :: _, h1, _ => by simp [strLess] at h1
  | x :: xs, y :: ys, z :: zs, h1, h2 => by
    simp only [strLess] at h1 h2 ⊢
    rcases lt_trichotomy y x with hyx | hyx | hyx
    · rw [if_pos hyx] at h1
      exact absurd h1 (by decide)
    · subst hyx
      rw [if_neg (lt_irrefl y), if_neg (lt_irrefl y)] at h1
      rcases lt_trichotomy z y with hzy | hzy | hzy
      · rw [if_pos hzy] at h2
        exact absurd h2 (by decide)
      · subst hzy
        rw [if_neg (lt_irrefl z), if_neg (lt_irrefl z)] at h2 ⊢
        exact strLess_false_trans xs ys zs h1 h2
      · rw [if_neg (not_lt_of_lt hzy), if_pos hzy]
    · rcases lt_trichotomy z y with hzy | hzy | hzy
      · rw [if_pos hzy] at h2
        exact absurd h2 (by decide)
      · subst hzy
        rw [if_neg (not_lt_of_lt hyx), if_pos hyx]
      · have hzx : x < z := lt_trans hyx hzy
        rw [if_neg (not_lt_of_lt hzx), if_pos hzx]

/-- The output of `sortSort` is a rearrangement of its input. -/
theorem sortSort_perm {α : Type} (less : α → α → Bool) (l : List α) :
    (sortSort less l).Perm l :=
  List.perm_insertionSort _ l

/-- The output of `sortSort` is sorted, when `less` is a strict weak order. -/
theorem sortSort_sorted {α : Type} (less : α → α → Bool)
    (hasymm : ∀ a b, less a b = true → less b a = false)
    (htrans : ∀ a b c, less b a = false → less c b = false → less c a = false)
    (l : List α) :
    (sortSort less l).Pairwise (fun a b => less b a = false) := by
  haveI : IsTotal α (fun a b => less b a = false) :=
    ⟨fun a b => by
      cases h : less b a
      · exact Or.inl rfl
      · exact Or.inr (hasymm b a h)⟩
  haveI : IsTrans α (fun a b => less b a = false) :=
    ⟨fun a b c hab hbc => htrans a b c hab hbc⟩
  exact List.sorted_insertionSort _ l

/-- Sorting by title: no shop has a title smaller than that of a shop before
it. -/
theorem sortSort_byTitle_sorted (heap : Heap) (l : List Ptr) :
    (sortSort (shopsByTitle.Less heap) l).Pairwise
      (fun p q => strLess (heap q).Title (heap p).Title = false) :=
  sortSort_sorted (shopsByTitle.Less heap)
    (fun _ _ h => strLess_asymm _ _ h)
    (fun _ _ _ h1 h2 => strLess_false_trans _ _ _ h1 h2) l

/-! ## The in-memory backend -/

/-- Indexing the map finds exactly what is stored. -/
theorem memoryDB_index_eq_some_iff (db : memoryDB) (id : Int) (p : Ptr) :
    db.index id = some p ↔ db.stored id p := by
  unfold memoryDB.index memoryDB.stored memoryDB.entries
  cases db.shops with
  | none => simp
  | some m => exact AList.mem_lookup_iff

/-- Indexing the map finds nothing exactly when nothing is stored. -/
theorem memoryDB_index_eq_none_iff (db : memoryDB) (id : Int) :
    db.index id = none ↔ ¬ ∃ p, db.stored id p := by
  constructor
  · intro h ⟨p, hp⟩
    rw [← memoryDB_index_eq_some_iff, h] at hp
    exact absurd hp (by simp)
  · intro h
    cases hi : db.index id with
    | none => rfl
    | some p => exact absurd ⟨p, (memoryDB_index_eq_some_iff db id p).mp hi⟩ h

/-- C1. Round trip on the in-memory backend: on an open backend AddShop
returns an identifier, and GetShop of that identifier then returns a shop
that equals the one passed in every field other than ID, its ID being the
returned identifier. -/
theorem C1_AddShop_GetShop_roundtrip (db : memoryDB) (heap : Heap) (b : Ptr)
    (hopen : db.shops.isSome = true) :
    ∃ id db1 heap1, db.AddShop heap b = (.ok id, db1, heap1) ∧
      ∃ p, db1.GetShop id = .ok p ∧ heap1 p = { heap b with ID := id } := by
  obtain ⟨nextID, shops⟩ := db
  cases shops with
  | none => simp at hopen
  | some m =>
    refine ⟨nextID, ⟨wrapInt64 (nextID + 1), some (m.insert nextID b)⟩,
      heap.set b { heap b with ID := nextID }, ?_, b, ?_, ?_⟩
    · simp [memoryDB.AddShop, Heap.set]
    · simp [memoryDB.GetShop, memoryDB.index, AList.lookup_insert]
    · simp [Heap.set]

/-- The round trip on a fresh backend. -/
theorem C1_AddShop_GetShop_roundtrip_witness :
    ∃ id db1 heap1, newMemoryDB.AddShop heapOne 0 = (.ok id, db1, heap1) ∧
      ∃ p, db1.GetShop id = .ok p ∧ heap1 p = { heapOne 0 with ID := id } :=
  C1_AddShop_GetShop_roundtrip newMemoryDB heapOne 0 (by decide)

/-- C2. Update visibility on the in-memory backend: when the shop passed has
a non-zero ID under which a shop is already stored, UpdateShop succeeds and
GetShop of that ID then returns the shop passed, every field included. -/
theorem C2_UpdateShop_visible (db : memoryDB) (heap : Heap) (b : Ptr)
    (hid : (heap b).ID ≠ 0) (hstored : ∃ p, db.stored (heap b).ID p) :
    ∃ db1, db.UpdateShop heap b = (.ok (), db1) ∧
      ∃ p, db1.GetShop (heap b).ID = .ok p ∧ heap p = heap b := by
  obtain ⟨nextID, shops⟩ := db
  cases shops with
  | none =>
    obtain ⟨p, hp⟩ := hstored
    simp [memoryDB.stored, memoryDB.entries] at hp
  | some m =>
    refine ⟨⟨nextID, some (m.insert (heap b).ID b)⟩, ?_, b, ?_, rfl⟩
    · simp [memoryDB.UpdateShop, hid]
    · simp [memoryDB.GetShop, memoryDB.index, AList.lookup_insert]

/-- The update of the shop stored under 1. -/
theorem C2_UpdateShop_visible_witness :
    ∃ db1, dbOne.UpdateShop heapOne 0 = (.ok (), db1) ∧
      ∃ p, db1.GetShop (heapOne 0).ID = .ok p ∧ heapOne p = heapOne 0 :=
  C2_UpdateShop_visible dbOne heapOne 0 (by decide) ⟨0, by decide⟩

/-- C3. Delete removes on the in-memory backend: when DeleteShop returns no
error, GetShop of the same identifier on the backend it leaves returns the
not-found error. -/
theorem C3_DeleteShop_then_GetShop_fails (db : memoryDB) (id : Int)
    (hok : (db.DeleteShop id).1 = .ok ()) :
    (db.DeleteShop id).2.GetShop id = .error (.memNotFound id) := by
  by_cases h0 : id = 0
  · simp [memoryDB.DeleteShop, h0] at hok
  · cases hi : db.index id with
    | none => simp [memoryDB.DeleteShop, h0, hi] at hok
    | some p =>
      obtain ⟨nextID, shops⟩ := db
      cases shops with
      | none => simp [memoryDB.index] at hi
      | some m =>
        have hl : AList.lookup id m = some p := hi
        simp [memoryDB.DeleteShop, h0, memoryDB.GetShop, memoryDB.index, hl,
          AList.lookup_erase]

/-- The deletion of the shop stored under 1. -/
theorem C3_DeleteShop_then_GetShop_fails_witness :
    (dbOne.DeleteShop 1).1 = .ok () ∧
      (dbOne.DeleteShop 1).2.GetShop 1 = .error (.memNotFound 1) :=
  ⟨by decide, C3_DeleteShop_then_GetShop_fails dbOne 1 (by decide)⟩

/-- C4. ListShops returns no error and a list that is a rearrangement of the
stored shops (one per entry of the map, none when the map is empty), in which
no title is smaller, byte-wise, than a title before it. After adding the
titles Zeta, Alpha and Mu to a fresh backend the titles come back as Alpha,
Mu, Zeta. -/
theorem C4_ListShops_sorted_perm (db : memoryDB) (heap : Heap) :
    (∃ l, db.ListShops heap = .ok l ∧
      l.Perm (db.entries.map (fun e => e.2)) ∧
      l.Pairwise (fun p q => strLess (heap q).Title (heap p).Title = false)) ∧
    (let r1 := newMemoryDB.AddShop heapZAM 0
     let r2 := r1.2.1.AddShop r1.2.2 1
     let r3 := r2.2.1.AddShop r2.2.2 2
     r1.1 = .ok 1 ∧ r2.1 = .ok 2 ∧ r3.1 = .ok 3 ∧
     ∃ l, r3.2.1.ListShops r3.2.2 = .ok l ∧
       l.map (fun p => (r3.2.2 p).Title) = [str "Alpha", str "Mu", str "Zeta"]) := by
  refine ⟨⟨_, rfl, sortSort_perm _ _, sortSort_byTitle_sorted heap _⟩, ?_⟩
  refine ⟨by decide, by decide, by decide, [1, 2, 0], by decide, by decide⟩

/-- C5. For a non-empty creator identifier, ListShopsCreatedBy returns no
error and a list that is a rearrangement of the stored shops whose
CreatedByID is that identifier: every shop returned has that creator, and no
title is smaller than a title before it. After adding X created by u1 and Y
created by u2 to a fresh backend, ListShopsCreatedBy(u1) returns one shop,
titled X. -/
theorem C5_ListShopsCreatedBy_filters (db : memoryDB) (heap : Heap) (x : GoString)
    (hx : x ≠ str "") :
    (∃ l, db.ListShopsCreatedBy heap x = .ok l ∧
      l.Perm ((db.entries.map (fun e => e.2)).filter (fun p => (heap p).CreatedByID = x)) ∧
      (∀ p ∈ l, (heap p).CreatedByID = x) ∧
      l.Pairwise (fun p q => strLess (heap q).Title (heap p).Title = false)) ∧
    (let r1 := newMemoryDB.AddShop heapXY 0
     let r2 := r1.2.1.AddShop r1.2.2 1
     r1.1 = .ok 1 ∧ r2.1 = .ok 2 ∧
     ∃ l, r2.2.1.ListShopsCreatedBy r2.2.2 (str "u1") = .ok l ∧
       l.map (fun p => (r2.2.2 p).Title) = [str "X"]) := by
  refine ⟨⟨_, ?_, sortSort_perm _ _, ?_, sortSort_byTitle_sorted heap _⟩, ?_⟩
  · simp only [memoryDB.ListShopsCreatedBy, if_neg hx]
    rfl
  · intro p hp
    have hmem := (sortSort_perm (shopsByTitle.Less heap) _).mem_iff.mp hp
    simpa using (List.mem_filter.mp hmem).2
  · refine ⟨by decide, by decide, [0], by decide, by decide⟩

/-- The shops created by u1 among the two stored shops X and Y. -/
theorem C5_ListShopsCreatedBy_filters_witness :
    str "u1" ≠ str "" ∧
    ∃ l, dbTwo.ListShopsCreatedBy heapXY (str "u1") = .ok l ∧
      l.Perm ((dbTwo.entries.map (fun e => e.2)).filter
        (fun p => (heapXY p).CreatedByID = str "u1")) ∧
      (∀ p ∈ l, (heapXY p).CreatedByID = str "u1") :=
  have h := (C5_ListShopsCreatedBy_filters dbTwo heapXY (str "u1") (by decide)).1
  ⟨by decide, h.elim (fun l hl => ⟨l, hl.1, hl.2.1, hl.2.2.1⟩)⟩

/-- In the in-memory backend the empty creator identifier means ListShops. -/
theorem memoryDB_ListShopsCreatedBy_empty (db : memoryDB) (heap : Heap) :
    db.ListShopsCreatedBy heap (str "") = db.ListShops heap := by
  simp [memoryDB.ListShopsCreatedBy]

/-- In the managed-datastore backend the empty creator identifier means
ListShops. -/
theorem datastoreDB_ListShopsCreatedBy_empty (db : datastoreDB) :
    db.ListShopsCreatedBy (str "") = db.ListShops := by
  simp [datastoreDB.ListShopsCreatedBy]

/-- C6. ListShopsCreatedBy of the empty creator identifier is ListShops in
the in-memory and the managed-datastore backend, on every state. The
document-store backend has no such case: on a collection holding one shop
created by u1, ListShops returns that shop and ListShopsCreatedBy of the
empty identifier returns nothing. -/
theorem C6_mongo_ListShopsCreatedBy_empty_still_filters :
    (∀ (db : memoryDB) (heap : Heap),
      db.ListShopsCreatedBy heap (str "") = db.ListShops heap) ∧
    (∀ db : datastoreDB, db.ListShopsCreatedBy (str "") = db.ListShops) ∧
    (mongoDB.mk [shopU1]).ListShops = .ok [shopU1] ∧
    (mongoDB.mk [shopU1]).ListShopsCreatedBy (str "") = .ok [] :=
  ⟨memoryDB_ListShopsCreatedBy_empty, datastoreDB_ListShopsCreatedBy_empty,
    by decide, by decide⟩

/-- C7. GetShop returns an error, the not-found error, exactly when no shop
is stored under the identifier, and returns a shop exactly when that shop is
stored under it; on a fresh backend GetShop fails for 9999 and for every
other identifier. -/
theorem C7_GetShop_error_iff_absent (db : memoryDB) (id : Int) :
    ((db.GetShop id).isError = true ↔ ¬ ∃ p, db.stored id p) ∧
    (db.GetShop id = .error (.memNotFound id) ↔ ¬ ∃ p, db.stored id p) ∧
    (∀ p, db.GetShop id = .ok p ↔ db.stored id p) ∧
    newMemoryDB.GetShop 9999 = .error (.memNotFound 9999) ∧
    newMemoryDB.GetShop id = .error (.memNotFound id) := by
  refine ⟨?_, ?_, ?_, by decide, ?_⟩
  · rw [← memoryDB_index_eq_none_iff]
    unfold memoryDB.GetShop
    cases db.index id <;> simp [Res.isError]
  · rw [← memoryDB_index_eq_none_iff]
    unfold memoryDB.GetShop
    cases db.index id <;> simp
  · intro p
    rw [← memoryDB_index_eq_some_iff]
    unfold memoryDB.GetShop
    cases db.index id <;> simp
  · simp [memoryDB.GetShop, memoryDB.index, newMemoryDB]

/-- In the in-memory backend DeleteShop(0) is refused on every state. -/
theorem memoryDB_DeleteShop_zero (db : memoryDB) :
    db.DeleteShop 0 = (.error .memDeleteUnassigned, db) := by
  simp [memoryDB.DeleteShop]

/-- C8. The in-memory backend refuses DeleteShop(0) on every state, by the
identifier alone. The other two backends hand the zero identifier to the
store: on an empty datastore UpdateShop of a shop whose ID is 0 succeeds and
inserts the shop under a new key, as AddShop does; in the document store
DeleteShop(0) returns the store's not-found error on an empty collection and
succeeds on a collection that holds a document with id 0. -/
theorem C8_zero_ID_reaches_the_store :
    (∀ db : memoryDB, db.DeleteShop 0 = (.error .memDeleteUnassigned, db)) ∧
    shopUnassigned.ID = 0 ∧
    (datastoreDB.mk []).UpdateShop shopUnassigned =
      .ok ⟨[(⟨"Shop", "", 1⟩, shopUnassigned)]⟩ ∧
    (datastoreDB.mk []).AddShop shopUnassigned =
      .ok (1, ⟨[(⟨"Shop", "", 1⟩, shopUnassigned)]⟩) ∧
    (mongoDB.mk []).DeleteShop 0 = .error .mgoErrNotFound ∧
    (mongoDB.mk [shopUnassigned]).DeleteShop 0 = .ok ⟨[]⟩ ∧
    (mongoDB.mk [shopUnassigned]).UpdateShop { shopUnassigned with Title := str "u" } =
      .ok ⟨[{ shopUnassigned with Title := str "u" }]⟩ :=
  ⟨memoryDB_DeleteShop_zero, by decide, by decide, by decide, by decide, by decide, by decide⟩

/-- C9. DeleteShop returns an error exactly when the identifier is 0 or no
shop is stored under it, and it does not panic; when it returns an error the
backend after the call, map and counter, is the backend before the call. -/
theorem C9_DeleteShop_error_iff (db : memoryDB) (id : Int) :
    ((db.DeleteShop id).1.isError = true ↔ (id = 0 ∨ ¬ ∃ p, db.stored id p)) ∧
    (db.DeleteShop id).1 ≠ .panic ∧
    ((db.DeleteShop id).1.isError = true → (db.DeleteShop id).2 = db) := by
  rw [← memoryDB_index_eq_none_iff]
  unfold memoryDB.DeleteShop
  by_cases h0 : id = 0
  · simp [h0, Res.isError]
  · cases hi : db.index id <;> simp [h0, Res.isError]

/-- The deletion of an identifier under which nothing is stored. -/
theorem C9_DeleteShop_error_iff_witness :
    (dbOne.DeleteShop 5).1.isError = true ∧ (dbOne.DeleteShop 5).2 = dbOne :=
  ⟨by decide, (C9_DeleteShop_error_iff dbOne 5).2.2 (by decide)⟩

/-- C10, as stated, fails on a closed backend. After Close the map is nil;
UpdateShop of a shop with the non-zero ID 1, under which nothing is stored,
panics on the assignment to the nil map: it neither succeeds nor creates the
record. -/
theorem C10_counterexample_closed_backend :
    (newMemoryDB.Close.UpdateShop heapOne 0).1 = .panic ∧
    ¬ ((heapOne 0).ID ≠ 0 ∧ (¬ ∃ p, newMemoryDB.Close.stored (heapOne 0).ID p) →
        (newMemoryDB.Close.UpdateShop heapOne 0).1 = .ok () ∧
        (newMemoryDB.Close.UpdateShop heapOne 0).2.GetShop (heapOne 0).ID = .ok 0) := by
  refine ⟨by decide, ?_⟩
  intro h
  have hpre : (heapOne 0).ID ≠ 0 ∧ ¬ ∃ p, newMemoryDB.Close.stored (heapOne 0).ID p :=
    ⟨by decide, by simp [memoryDB.stored, memoryDB.entries, memoryDB.Close, newMemoryDB]⟩
  exact absurd (h hpre).1 (by decide)

/-- C10, amended to open backends. On a backend whose map is not nil,
UpdateShop returns an error exactly when the ID of the shop is 0, and then
leaves the backend as it was; when the ID is non-zero and nothing is stored
under it, UpdateShop succeeds, GetShop of the ID then returns the shop
passed, and ListShops returns one more shop than before. -/
theorem C10_UpdateShop_open_backend (db : memoryDB) (heap : Heap) (b : Ptr)
    (hopen : db.shops.isSome = true) :
    ((db.UpdateShop heap b).1.isError = true ↔ (heap b).ID = 0) ∧
    ((heap b).ID = 0 → (db.UpdateShop heap b).2 = db) ∧
    ((heap b).ID ≠ 0 → (¬ ∃ p, db.stored (heap b).ID p) →
      (db.UpdateShop heap b).1 = .ok () ∧
      (db.UpdateShop heap b).2.GetShop (heap b).ID = .ok b ∧
      ∃ l0 l1, db.ListShops heap = .ok l0 ∧
        (db.UpdateShop heap b).2.ListShops heap = .ok l1 ∧
        l1.length = l0.length + 1) := by
  obtain ⟨nextID, shops⟩ := db
  cases shops with
  | none => simp at hopen
  | some m =>
    refine ⟨?_, ?_, ?_⟩
    · by_cases h0 : (heap b).ID = 0 <;> simp [memoryDB.UpdateShop, h0, Res.isError]
    · intro h0
      simp [memoryDB.UpdateShop, h0]
    · intro h0 habsent
      have hnone := (memoryDB_index_eq_none_iff ⟨nextID, some m⟩ (heap b).ID).mpr habsent
      have hnotin : (heap b).ID ∉ m := AList.lookup_eq_none.mp hnone
      refine ⟨?_, ?_, _, _, rfl, rfl, ?_⟩
      · simp [memoryDB.UpdateShop, h0]
      · simp [memoryDB.UpdateShop, h0, memoryDB.GetShop, memoryDB.index, AList.lookup_insert]
      · rw [(sortSort_perm _ _).length_eq, (sortSort_perm _ _).length_eq]
        simp only [memoryDB.UpdateShop, if_neg h0, memoryDB.range, memoryDB.entries]
        rw [AList.insert_entries_of_neg hnotin]
        simp

/-- The update of a fresh backend with a shop whose ID is 1. -/
theorem C10_UpdateShop_open_backend_witness :
    (newMemoryDB.UpdateShop heapOne 0).1 = .ok () ∧
    (newMemoryDB.UpdateShop heapOne 0).2.GetShop (heapOne 0).ID = .ok 0 ∧
    ∃ l0 l1, newMemoryDB.ListShops heapOne = .ok l0 ∧
      (newMemoryDB.UpdateShop heapOne 0).2.ListShops heapOne = .ok l1 ∧
      l1.length = l0.length + 1 :=
  (C10_UpdateShop_open_backend newMemoryDB heapOne 0 (by decide)).2.2 (by decide)
    (by simp [memoryDB.stored, memoryDB.entries, newMemoryDB])

/-! ## Sequences of calls on the in-memory backend -/

/-- An integer within the range of int64 wraps to itself. -/
theorem wrapInt64_eq_self (x : Int) (h0 : -(2 ^ 63) ≤ x) (h1 : x < 2 ^ 63) :
    wrapInt64 x = x := by
  unfold wrapInt64
  omega

/-- AddShop on an open backend, spelled out. -/
theorem memoryDB_AddShop_open (nextID : Int) (m : ShopMap) (heap : Heap) (b : Ptr) :
    memoryDB.AddShop ⟨nextID, some m⟩ heap b =
      (.ok nextID, ⟨wrapInt64 (nextID + 1), some (m.insert nextID b)⟩,
        heap.set b { heap b with ID := nextID }) := by
  simp [memoryDB.AddShop, Heap.set]

/-- UpdateShop and DeleteShop leave the counter and the openness of the
backend as they are. -/
theorem memoryDB_UpdateShop_nextID (db : memoryDB) (heap : Heap) (b : Ptr) :
    (db.UpdateShop heap b).2.nextID = db.nextID ∧
    (db.UpdateShop heap b).2.shops.isSome = db.shops.isSome := by
  obtain ⟨nextID, shops⟩ := db
  by_cases h0 : (heap b).ID = 0
  · simp [memoryDB.UpdateShop, h0]
  · cases shops <;> simp [memoryDB.UpdateShop, h0]

theorem memoryDB_DeleteShop_nextID (db : memoryDB) (id : Int) :
    (db.DeleteShop id).2.nextID = db.nextID ∧
    (db.DeleteShop id).2.shops.isSome = db.shops.isSome := by
  obtain ⟨nextID, shops⟩ := db
  by_cases h0 : id = 0
  · simp [memoryDB.DeleteShop, h0]
  · cases hi : memoryDB.index ⟨nextID, shops⟩ id <;>
      cases shops <;> simp [memoryDB.DeleteShop, h0, hi]

/-- Along a sequence of calls with fewer than 2^63 - 1 AddShop calls the
backend stays open, the counter is one more than the number of AddShop calls,
and the identifiers returned so far are 1, 2, 3, ... in this order. -/
theorem memoryDB_Reach_counter (ids : List Int) (db : memoryDB) (h : db.Reach ids) :
    (ids.length : Int) < 2 ^ 63 - 1 →
      db.shops.isSome = true ∧ db.nextID = (ids.length : Int) + 1 ∧
      ids = (List.range ids.length).map (fun i : Nat => (i : Int) + 1) := by
  induction h with
  | fresh => intro _; exact ⟨rfl, rfl, rfl⟩
  | add ids db heap b id _ hadd ih =>
    intro hlen
    simp only [List.length_append, List.length_singleton, Nat.cast_add, Nat.cast_one] at hlen
    obtain ⟨hopen, hnext, hids⟩ := ih (by omega)
    obtain ⟨nextID, shops⟩ := db
    cases shops with
    | none => simp at hopen
    | some m =>
      rw [memoryDB_AddShop_open] at hadd ⊢
      simp only [Res.ok.injEq] at hadd
      simp only at hnext
      subst hadd
      refine ⟨rfl, ?_, ?_⟩
      · simp only [List.length_append, List.length_singleton, Nat.cast_add, Nat.cast_one]
        rw [wrapInt64_eq_self _ (by omega) (by omega), hnext]
      · rw [List.length_append, List.length_singleton, List.range_succ, List.map_append,
          ← hids, hnext]
        rfl
  | update ids db heap b _ ih =>
    intro hlen
    obtain ⟨hopen, hnext, hids⟩ := ih hlen
    obtain ⟨h1, h2⟩ := memoryDB_UpdateShop_nextID db heap b
    exact ⟨by rw [h2, hopen], by rw [h1, hnext], hids⟩
  | delete ids db id _ ih =>
    intro hlen
    obtain ⟨hopen, hnext, hids⟩ := ih hlen
    obtain ⟨h1, h2⟩ := memoryDB_DeleteShop_nextID db id
    exact ⟨by rw [h2, hopen], by rw [h1, hnext], hids⟩

/-- What is stored after AddShop was stored before, or is stored under the
identifier assigned. -/
theorem memoryDB_stored_AddShop (db : memoryDB) (heap : Heap) (b : Ptr) (k : Int) (p : Ptr)
    (h : (db.AddShop heap b).2.1.stored k p) : k = db.nextID ∨ db.stored k p := by
  obtain ⟨nextID, shops⟩ := db
  cases shops with
  | none => exact Or.inr h
  | some m =>
    rw [memoryDB_AddShop_open] at h
    simp only [memoryDB.stored, memoryDB.entries, AList.insert_entries, List.mem_cons] at h ⊢
    rcases h with h | h
    · left
      exact congrArg Sigma.fst h
    · right
      exact (List.kerase_sublist _ _).subset h

/-- What is stored after UpdateShop was stored before, or is stored under the
ID of the shop passed. -/
theorem memoryDB_stored_UpdateShop (db : memoryDB) (heap : Heap) (b : Ptr) (k : Int) (p : Ptr)
    (h : (db.UpdateShop heap b).2.stored k p) : k = (heap b).ID ∨ db.stored k p := by
  obtain ⟨nextID, shops⟩ := db
  by_cases h0 : (heap b).ID = 0
  · right
    simpa [memoryDB.UpdateShop, h0] using h
  · cases shops with
    | none =>
      right
      simpa [memoryDB.UpdateShop, h0] using h
    | some m =>
      simp only [memoryDB.UpdateShop, if_neg h0, memoryDB.stored, memoryDB.entries,
        AList.insert_entries, List.mem_cons] at h ⊢
      rcases h with h | h
      · left
        exact congrArg Sigma.fst h
      · right
        exact (List.kerase_sublist _ _).subset h

/-- What is stored after DeleteShop was stored before. -/
theorem memoryDB_stored_DeleteShop (db : memoryDB) (id : Int) (k : Int) (p : Ptr)
    (h : (db.DeleteShop id).2.stored k p) : db.stored k p := by
  obtain ⟨nextID, shops⟩ := db
  by_cases h0 : id = 0
  · simpa [memoryDB.DeleteShop, h0] using h
  · cases hi : memoryDB.index ⟨nextID, shops⟩ id with
    | none => simpa [memoryDB.DeleteShop, h0, hi] using h
    | some q =>
      cases shops with
      | none => simp [memoryDB.index] at hi
      | some m =>
        simp only [memoryDB.DeleteShop, if_neg h0, hi, memoryDB.stored, memoryDB.entries,
          Option.map_some', AList.erase] at h ⊢
        exact (List.kerase_sublist _ _).subset h

/-- A sequence of calls whose updates carry assigned identifiers is a
sequence of calls. -/
theorem memoryDB_Reach_of_ReachAssigned (ids : List Int) (db : memoryDB)
    (h : db.ReachAssigned ids) : db.Reach ids := by
  induction h with
  | fresh => exact .fresh
  | add ids db heap b id _ hadd ih => exact .add ids db heap b id ih hadd
  | update ids db heap b _ _ ih => exact .update ids db heap b ih
  | delete ids db id _ ih => exact .delete ids db id ih

/-- When every UpdateShop carries an identifier that AddShop returned, shops
are stored under such identifiers only. -/
theorem memoryDB_ReachAssigned_keys (ids : List Int) (db : memoryDB)
    (h : db.ReachAssigned ids) : ∀ k p, db.stored k p → k ∈ ids := by
  induction h with
  | fresh =>
    intro k p hs
    simp [memoryDB.stored, memoryDB.entries, newMemoryDB] at hs
  | add ids db heap b id _ hadd ih =>
    intro k p hs
    rcases memoryDB_stored_AddShop db heap b k p hs with hk | hk
    · obtain ⟨nextID, shops⟩ := db
      cases shops with
      | none => simp [memoryDB.AddShop] at hadd
      | some m =>
        rw [memoryDB_AddShop_open] at hadd
        simp only [Res.ok.injEq] at hadd
        simp only at hk
        simp [hk, hadd]
    · exact List.mem_append_left _ (ih k p hk)
  | update ids db heap b _ hmem ih =>
    intro k p hs
    rcases memoryDB_stored_UpdateShop db heap b k p hs with hk | hk
    · rw [hk]
      exact hmem
    · exact ih k p hk
  | delete ids db id _ ih =>
    intro k p hs
    exact ih k p (memoryDB_stored_DeleteShop db id k p hs)

/-- C11, as stated, fails: UpdateShop creates a record under an identifier
that the counter has not reached. After UpdateShop of a shop with ID 1 on a
fresh backend a shop is stored under 1; AddShop then assigns 1 again, the
number of stored shops stays 1, and GetShop(1) returns the shop added in
place of the shop that was stored. -/
theorem C11_counterexample_UpdateShop_then_AddShop :
    memoryDB.Reach [] dbUpdated ∧
    dbUpdated.stored 1 0 ∧
    (dbUpdated.AddShop heapOne 5).1 = .ok 1 ∧
    (dbUpdated.AddShop heapOne 5).2.1.entries.length = dbUpdated.entries.length ∧
    dbUpdated.GetShop 1 = .ok 0 ∧
    (dbUpdated.AddShop heapOne 5).2.1.GetShop 1 = .ok 5 :=
  ⟨.update [] newMemoryDB heapOne 0 .fresh, by decide, by decide, by decide, by decide,
    by decide⟩

/-- C11, amended. In every state reached from a fresh instance by AddShop,
DeleteShop and UpdateShop calls, where every UpdateShop is of a shop whose ID
an earlier AddShop returned and fewer than 2^63 - 1 AddShop calls were made,
AddShop succeeds with an identifier under which no shop is stored, every
stored shop stays stored, and the number of stored shops grows by one. -/
theorem C11_AddShop_assigns_unused_id (ids : List Int) (db : memoryDB)
    (h : db.ReachAssigned ids) (hlen : (ids.length : Int) < 2 ^ 63 - 1)
    (heap : Heap) (b : Ptr) :
    ∃ id, (db.AddShop heap b).1 = .ok id ∧
      (¬ ∃ p, db.stored id p) ∧
      (∀ k p, db.stored k p → (db.AddShop heap b).2.1.stored k p) ∧
      (db.AddShop heap b).2.1.entries.length = db.entries.length + 1 := by
  obtain ⟨hopen, hnext, hids⟩ :=
    memoryDB_Reach_counter ids db (memoryDB_Reach_of_ReachAssigned ids db h) hlen
  have hkeys := memoryDB_ReachAssigned_keys ids db h
  have hfresh : ¬ ∃ p, db.stored db.nextID p := by
    rintro ⟨p, hp⟩
    have hmem := hkeys _ p hp
    rw [hids, hnext] at hmem
    simp only [List.mem_map, List.mem_range] at hmem
    obtain ⟨i, hi, hieq⟩ := hmem
    omega
  obtain ⟨nextID, shops⟩ := db
  cases shops with
  | none => simp at hopen
  | some m =>
    have hnone := (memoryDB_index_eq_none_iff ⟨nextID, some m⟩ nextID).mpr hfresh
    have hnotin : nextID ∉ m := AList.lookup_eq_none.mp hnone
    refine ⟨nextID, ?_, hfresh, ?_, ?_⟩
    · rw [memoryDB_AddShop_open]
    · intro k p hs
      rw [memoryDB_AddShop_open]
      simp only [memoryDB.stored, memoryDB.entries] at hs ⊢
      rw [AList.insert_entries_of_neg hnotin]
      exact List.mem_cons_of_mem _ hs
    · rw [memoryDB_AddShop_open]
      simp only [memoryDB.entries]
      rw [AList.insert_entries_of_neg hnotin]
      rfl

/-- AddShop after an AddShop and an UpdateShop of the shop that was added. -/
theorem C11_AddShop_assigns_unused_id_witness :
    ∃ id, (((newMemoryDB.AddShop heapOne 0).2.1.UpdateShop heapOne 0).2.AddShop heapOne 5).1
        = .ok id ∧
      (¬ ∃ p, ((newMemoryDB.AddShop heapOne 0).2.1.UpdateShop heapOne 0).2.stored id p) ∧
      (∀ k p, ((newMemoryDB.AddShop heapOne 0).2.1.UpdateShop heapOne 0).2.stored k p →
        (((newMemoryDB.AddShop heapOne 0).2.1.UpdateShop heapOne 0).2.AddShop
          heapOne 5).2.1.stored k p) ∧
      (((newMemoryDB.AddShop heapOne 0).2.1.UpdateShop heapOne 0).2.AddShop
          heapOne 5).2.1.entries.length =
        ((newMemoryDB.AddShop heapOne 0).2.1.UpdateShop heapOne 0).2.entries.length + 1 :=
  C11_AddShop_assigns_unused_id [1] _
    (.update [1] _ heapOne 0 (.add [] newMemoryDB heapOne 0 1 .fresh (by decide)) (by decide))
    (by decide) heapOne 5

/-- C16. Starting from a fresh instance, after any sequence of AddShop,
UpdateShop and DeleteShop calls with k AddShop calls among them (k + 1 within
the range of int64), the identifiers returned so far are 1, 2, ..., k in
this order and the next AddShop returns k + 1, whatever shop is passed: the
identifier is not 0 and is none of the identifiers returned before, freed or
not. -/
theorem C16_kth_AddShop_returns_k (ids : List Int) (db : memoryDB) (h : db.Reach ids)
    (hlen : (ids.length : Int) < 2 ^ 63 - 1) (heap : Heap) (b : Ptr) :
    ids = (List.range ids.length).map (fun i : Nat => (i : Int) + 1) ∧
    (db.AddShop heap b).1 = .ok ((ids.length : Int) + 1) ∧
    ((ids.length : Int) + 1 ≠ 0) ∧
    (∀ id ∈ ids, id < (ids.length : Int) + 1) := by
  obtain ⟨hopen, hnext, hids⟩ := memoryDB_Reach_counter ids db h hlen
  refine ⟨hids, ?_, by omega, ?_⟩
  · obtain ⟨nextID, shops⟩ := db
    cases shops with
    | none => simp at hopen
    | some m =>
      rw [memoryDB_AddShop_open]
      simp only at hnext
      rw [hnext]
  · intro id hid
    rw [hids] at hid
    simp only [List.mem_map, List.mem_range] at hid
    obtain ⟨i, hi, hieq⟩ := hid
    omega

/-- The third AddShop, after two AddShop calls and a DeleteShop of the first
shop, returns 3. -/
theorem C16_kth_AddShop_returns_k_witness :
    [1, 2] = (List.range 2).map (fun i : Nat => (i : Int) + 1) ∧
    ((((newMemoryDB.AddShop heapOne 0).2.1.AddShop heapOne 1).2.1.DeleteShop 1).2.AddShop
      heapOne 0).1 = .ok 3 ∧
    ((2 : Int) + 1 ≠ 0) ∧
    (∀ id ∈ [(1 : Int), 2], id < (2 : Int) + 1) :=
  C16_kth_AddShop_returns_k [1, 2] _
    (.delete [1, 2] _ 1
      (.add [1] _ heapOne 1 2 (.add [] newMemoryDB heapOne 0 1 .fresh (by decide)) (by decide)))
    (by decide) heapOne 0

/-! ## The caller's shop and the stored shop -/

/-- C12, as stated, fails on the in-memory backend: AddShop writes the
identifier into the caller's shop. The shop at address 0 has ID 0 before the
call and ID 1, the identifier returned, after it. -/
theorem C12_counterexample_AddShop_sets_ID :
    (heapZAM 0).ID = 0 ∧
    (newMemoryDB.AddShop heapZAM 0).1 = .ok 1 ∧
    ((newMemoryDB.AddShop heapZAM 0).2.2 0).ID = 1 ∧
    ¬ ((newMemoryDB.AddShop heapZAM 0).2.2 0 = heapZAM 0) :=
  ⟨by decide, by decide, by decide, by decide⟩

/-- In the document-store backend a failing Insert leaves the drawn
identifier in the caller's shop: the call returns an error and the ID of the
shop at address 0 has gone from 0 to 42. -/
theorem mongoDB_AddShop_failed_Insert :
    ((mongoDB.mk []).AddShop heapZAM 0 (.ok 41) (some .mgoInsert)).1 =
      .error (.mongoAdd .mgoInsert) ∧
    (heapZAM 0).ID = 0 ∧
    (((mongoDB.mk []).AddShop heapZAM 0 (.ok 41) (some .mgoInsert)).2.2 0).ID = 42 :=
  ⟨by decide, by decide, by decide⟩

/-- C12, amended. In every backend and on every return of AddShop, with an
identifier or with an error, every field of the caller's shop other than ID
is as before the call and no other shop object is written. In the in-memory
and in the document-store backend, when AddShop returns an identifier the
caller's shop has that identifier as its ID; when the document-store backend
cannot draw an identifier the caller's shop is as before the call. The
managed-datastore backend writes no shop object at all, whatever it
returns. -/
theorem C12_AddShop_writes_only_ID (heap : Heap) (b : Ptr) :
    (∀ (db : memoryDB) (q : Ptr),
      (db.AddShop heap b).2.2 q = { heap q with ID := ((db.AddShop heap b).2.2 q).ID } ∧
      (q ≠ b → (db.AddShop heap b).2.2 q = heap q)) ∧
    (∀ (db : memoryDB) (id : Int), (db.AddShop heap b).1 = .ok id →
      (db.AddShop heap b).2.2 b = { heap b with ID := id }) ∧
    (∀ (db : mongoDB) (r : Except StoreErr Int) (ins : Option StoreErr) (q : Ptr),
      (db.AddShop heap b r ins).2.2 q =
        { heap q with ID := ((db.AddShop heap b r ins).2.2 q).ID } ∧
      (q ≠ b → (db.AddShop heap b r ins).2.2 q = heap q)) ∧
    (∀ (db : mongoDB) (r : Except StoreErr Int) (ins : Option StoreErr) (id : Int),
      (db.AddShop heap b r ins).1 = .ok id →
      (db.AddShop heap b r ins).2.2 b = { heap b with ID := id }) ∧
    (∀ (db : mongoDB) (e : StoreErr) (ins : Option StoreErr),
      (db.AddShop heap b (.error e) ins).1 = .error (.mongoAssignID e) ∧
      (db.AddShop heap b (.error e) ins).2.2 = heap) ∧
    (∀ db : datastoreDB, (db.AddShopAt heap b).2.2 = heap) := by
  refine ⟨?_, ?_, ?_, ?_, ?_, ?_⟩
  · intro db q
    obtain ⟨nextID, shops⟩ := db
    cases shops with
    | none =>
      by_cases hq : q = b
      · subst hq
        simp [memoryDB.AddShop, Heap.set]
      · simp [memoryDB.AddShop, Heap.set, hq]
    | some m =>
      rw [memoryDB_AddShop_open]
      by_cases hq : q = b
      · subst hq
        simp [Heap.set]
      · simp [Heap.set, hq]
  · intro db id hok
    obtain ⟨nextID, shops⟩ := db
    cases shops with
    | none => simp [memoryDB.AddShop] at hok
    | some m =>
      rw [memoryDB_AddShop_open] at hok ⊢
      simp only [Res.ok.injEq] at hok
      subst hok
      simp [Heap.set]
  · intro db r ins q
    cases r with
    | error e => simp [mongoDB.AddShop, randomID]
    | ok n =>
      cases ins with
      | some e =>
        by_cases hq : q = b
        · subst hq
          simp [mongoDB.AddShop, randomID, Heap.set]
        · simp [mongoDB.AddShop, randomID, Heap.set, hq]
      | none =>
        by_cases hq : q = b
        · subst hq
          simp [mongoDB.AddShop, randomID, Heap.set]
        · simp [mongoDB.AddShop, randomID, Heap.set, hq]
  · intro db r ins id hok
    cases r with
    | error e => simp [mongoDB.AddShop, randomID] at hok
    | ok n =>
      cases ins with
      | some e => simp [mongoDB.AddShop, randomID] at hok
      | none =>
        simp only [mongoDB.AddShop, randomID, Res.ok.injEq] at hok ⊢
        subst hok
        simp [Heap.set]
  · intro db e ins
    simp [mongoDB.AddShop, randomID]
  · intro db
    unfold datastoreDB.AddShopAt
    cases db.AddShop (heap b) with
    | ok a => rfl
    | error e => rfl
    | panic => rfl

/-- AddShop of the shop titled Zeta on a fresh in-memory backend, on an empty
collection with the random number 41, and on an empty datastore. -/
theorem C12_AddShop_writes_only_ID_witness :
    (newMemoryDB.AddShop heapZAM 0).2.2 0 = { heapZAM 0 with ID := 1 } ∧
    ((mongoDB.mk []).AddShop heapZAM 0 (.ok 41) none).2.2 0 = { heapZAM 0 with ID := 42 } ∧
    ((datastoreDB.mk []).AddShopAt heapZAM 0).1 = .ok 1 ∧
    ((datastoreDB.mk []).AddShopAt heapZAM 0).2.2 = heapZAM :=
  ⟨(C12_AddShop_writes_only_ID heapZAM 0).2.1 newMemoryDB 1 (by decide),
    (C12_AddShop_writes_only_ID heapZAM 0).2.2.2.1 (mongoDB.mk []) (.ok 41) none 42
      (by decide),
    by decide,
    (C12_AddShop_writes_only_ID heapZAM 0).2.2.2.2.2 (datastoreDB.mk [])⟩

/-- C13, as stated, fails: the backend keeps the caller's object, not a copy.
GetShop(1) returns the shop at address 0; after the caller changes its
Description, without UpdateShop, GetShop(1) returns the changed shop. After
Zeta, Alpha and Mu were added, the caller retitles the shop it passed first
from Zeta to A, and ListShops lists it first instead of last. -/
theorem C13_counterexample_stored_shop_is_shared :
    dbOne.GetShop 1 = .ok 0 ∧
    (dbOne.GetShop 1).deref
        (heapOne.set 0 { heapOne 0 with Description := str "changed" }) =
      .ok { heapOne 0 with Description := str "changed" } ∧
    ¬ ((dbOne.GetShop 1).deref
        (heapOne.set 0 { heapOne 0 with Description := str "changed" }) =
      (dbOne.GetShop 1).deref heapOne) ∧
    (let r1 := newMemoryDB.AddShop heapZAM 0
     let r2 := r1.2.1.AddShop r1.2.2 1
     let r3 := r2.2.1.AddShop r2.2.2 2
     r3.2.1.ListShops r3.2.2 = .ok [1, 2, 0] ∧
     r3.2.1.ListShops (r3.2.2.set 0 { r3.2.2 0 with Title := str "A" }) = .ok [0, 1, 2]) :=
  ⟨by decide, by decide, by decide, by decide, by decide⟩

/-- C13, amended. The shop stored is the object the caller holds. When
GetShop returns a shop and the caller then overwrites that object, without
UpdateShop, GetShop of the same identifier returns the object as overwritten;
the same holds for the shop passed to AddShop and the identifier it returned.
ListShops then still lists the stored shops, each once, in the order of the
titles they have now. -/
theorem C13_changes_are_visible (db : memoryDB) (heap : Heap) (v : Shop) :
    (∀ id p, db.GetShop id = .ok p → (db.GetShop id).deref (heap.set p v) = .ok v) ∧
    (∀ b id, (db.AddShop heap b).1 = .ok id →
      ((db.AddShop heap b).2.1.GetShop id).deref ((db.AddShop heap b).2.2.set b v) = .ok v) ∧
    (∀ p, ∃ l, db.ListShops (heap.set p v) = .ok l ∧
      l.Perm (db.entries.map (fun e => e.2)) ∧
      l.Pairwise (fun x y =>
        strLess ((heap.set p v) y).Title ((heap.set p v) x).Title = false)) := by
  refine ⟨?_, ?_, ?_⟩
  · intro id p hget
    rw [hget]
    simp [Res.deref, Heap.set]
  · intro b id hok
    obtain ⟨nextID, shops⟩ := db
    cases shops with
    | none => simp [memoryDB.AddShop] at hok
    | some m =>
      rw [memoryDB_AddShop_open] at hok ⊢
      simp only [Res.ok.injEq] at hok
      subst hok
      simp [memoryDB.GetShop, memoryDB.index, AList.lookup_insert, Res.deref, Heap.set]
  · intro p
    exact ⟨_, rfl, sortSort_perm _ _, sortSort_byTitle_sorted _ _⟩

/-- The shop stored under 1, overwritten by the caller with the zero shop. -/
theorem C13_changes_are_visible_witness :
    (dbOne.GetShop 1).deref (heapOne.set 0 Shop.zero) = .ok Shop.zero ∧
    ((newMemoryDB.AddShop heapOne 0).2.1.GetShop 1).deref
      ((newMemoryDB.AddShop heapOne 0).2.2.set 0 Shop.zero) = .ok Shop.zero :=
  ⟨(C13_changes_are_visible dbOne heapOne Shop.zero).1 1 0 (by decide),
    (C13_changes_are_visible newMemoryDB heapOne Shop.zero).2.1 0 1 (by decide)⟩

/-! ## randomID and the creator of a shop -/

/-- C14. For every number n that the random source delivers in the range
[0, maxRand), with maxRand = 2^63 - 1, randomID returns n + 1 and no error:
the sum does not wrap, lies between 1 and 2^63 - 1, and is not the unassigned
identifier 0. When the random source fails, randomID returns 0 and the
error. -/
theorem C14_randomID_positive_int64 (n : Int) (h0 : 0 ≤ n) (h1 : n < maxRand) :
    maxRand = 2 ^ 63 - 1 ∧
    randomID (.ok n) = (n + 1, none) ∧
    1 ≤ (randomID (.ok n)).1 ∧ (randomID (.ok n)).1 ≤ 2 ^ 63 - 1 ∧
    (randomID (.ok n)).1 ≠ 0 ∧
    (∀ e, randomID (.error e) = (0, some e)) := by
  have hmax : maxRand = 2 ^ 63 - 1 := rfl
  rw [hmax] at h1
  have hr : randomID (.ok n) = (n + 1, none) := by
    simp only [randomID]
    rw [wrapInt64_eq_self n (by omega) (by omega),
      wrapInt64_eq_self (n + 1) (by omega) (by omega)]
  refine ⟨hmax, hr, ?_, ?_, ?_, fun e => rfl⟩
  · rw [hr]
    show 1 ≤ n + 1
    omega
  · rw [hr]
    show n + 1 ≤ 2 ^ 63 - 1
    omega
  · rw [hr]
    show n + 1 ≠ 0
    omega

/-- The largest number the random source delivers, 2^63 - 2. -/
theorem C14_randomID_positive_int64_witness :
    randomID (.ok (2 ^ 63 - 2)) = (2 ^ 63 - 2 + 1, none) ∧
    (randomID (.ok (2 ^ 63 - 2))).1 ≤ 2 ^ 63 - 1 :=
  have h := C14_randomID_positive_int64 (2 ^ 63 - 2) (by decide) (by decide)
  ⟨h.2.1, h.2.2.2.1⟩

/-- C15. CreatedByDisplayName returns the label Anonymous when CreatedByID is
the sentinel anonymous, and CreatedBy otherwise. After SetCreatorAnonymous
the display name is Anonymous, which is not the empty string, CreatedBy is
empty, CreatedByID is anonymous, and the other fields are as before. -/
theorem C15_anonymous_creator (b : Shop) :
    (b.CreatedByID = str "anonymous" → b.CreatedByDisplayName = str "Anonymous") ∧
    (b.CreatedByID ≠ str "anonymous" → b.CreatedByDisplayName = b.CreatedBy) ∧
    b.SetCreatorAnonymous.CreatedByDisplayName = str "Anonymous" ∧
    str "Anonymous" ≠ str "" ∧
    b.SetCreatorAnonymous.CreatedBy = str "" ∧
    b.SetCreatorAnonymous.CreatedByID = str "anonymous" ∧
    b.SetCreatorAnonymous.ID = b.ID ∧
    b.SetCreatorAnonymous.Title = b.Title ∧
    b.SetCreatorAnonymous.Author = b.Author ∧
    b.SetCreatorAnonymous.PublishedDate = b.PublishedDate ∧
    b.SetCreatorAnonymous.ImageURL = b.ImageURL ∧
    b.SetCreatorAnonymous.Description = b.Description := by
  refine ⟨?_, ?_, ?_, by decide, rfl, rfl, rfl, rfl, rfl, rfl, rfl, rfl⟩
  · intro h
    simp [Shop.CreatedByDisplayName, h]
  · intro h
    simp [Shop.CreatedByDisplayName, h]
  · simp [Shop.CreatedByDisplayName, Shop.SetCreatorAnonymous]

/-- The display name of a shop created by u1, and of an anonymous shop. -/
theorem C15_anonymous_creator_witness :
    shopU1.CreatedByDisplayName = shopU1.CreatedBy ∧
    shopU1.SetCreatorAnonymous.CreatedByDisplayName = str "Anonymous" :=
  ⟨(C15_anonymous_creator shopU1).2.1 (by decide),
    (C15_anonymous_creator shopU1.SetCreatorAnonymous).1 (by decide)⟩

/-! ## What the mutators of the in-memory backend leave alone -/

/-- Erasing a key that is present makes the map one entry shorter. -/
theorem ShopMap_length_erase (m : ShopMap) (id : Int) (h : id ∈ m) :
    (m.erase id).entries.length + 1 = m.entries.length := by
  have h1 : (m.erase id).keys = m.keys.erase id := AList.keys_erase id m
  have h2 : (m.erase id).keys.length = m.keys.length - 1 := by
    rw [h1]
    exact List.length_erase_of_mem (AList.mem_keys.mp h)
  have h3 : 0 < m.keys.length := List.length_pos_of_mem (AList.mem_keys.mp h)
  simp only [AList.keys, List.keys, List.length_map] at h2 h3
  omega

/-- C17, as stated, fails when the object passed to AddShop is the object
already stored under j. The shop at address 0 is added twice: the second
AddShop returns 2, and GetShop(1), which returned a shop with ID 1 before
that call, returns the same pointer after it, to a shop whose ID is now 2. -/
theorem C17_counterexample_AddShop_of_a_stored_object :
    (let r1 := newMemoryDB.AddShop heapZAM 0
     let r2 := r1.2.1.AddShop r1.2.2 0
     r1.1 = .ok 1 ∧ r2.1 = .ok 2 ∧
     r1.2.1.GetShop 1 = .ok 0 ∧ r2.2.1.GetShop 1 = .ok 0 ∧
     (r1.2.1.GetShop 1).deref r1.2.2 = .ok { heapZAM 0 with ID := 1 } ∧
     (r2.2.1.GetShop 1).deref r2.2.2 = .ok { heapZAM 0 with ID := 2 } ∧
     ¬ ((r2.2.1.GetShop 1).deref r2.2.2 = (r1.2.1.GetShop 1).deref r1.2.2)) :=
  ⟨by decide, by decide, by decide, by decide, by decide, by decide, by decide⟩

/-- C17, amended. For every state and every identifier j: an AddShop that
returns an identifier other than j, a DeleteShop of an identifier other than
j and an UpdateShop of a shop whose ID is not j leave what GetShop(j)
returns, pointer or error, as it was. The shop behind the pointer is as it
was too, for DeleteShop and UpdateShop always and for AddShop unless the
object passed is the object stored under j; in that case its ID has become
the identifier that AddShop returned and its other fields are as they were.
DeleteShop and UpdateShop leave the counter as it was, and a DeleteShop that
succeeds leaves one stored shop fewer. -/
theorem C17_mutators_frame (db : memoryDB) (heap : Heap) (j : Int) :
    (∀ b id, (db.AddShop heap b).1 = .ok id → j ≠ id →
      (db.AddShop heap b).2.1.GetShop j = db.GetShop j) ∧
    (∀ b id p, (db.AddShop heap b).1 = .ok id → j ≠ id → db.GetShop j = .ok p → p ≠ b →
      ((db.AddShop heap b).2.1.GetShop j).deref (db.AddShop heap b).2.2 =
        (db.GetShop j).deref heap) ∧
    (∀ id, j ≠ id → (db.DeleteShop id).2.GetShop j = db.GetShop j) ∧
    (∀ b, j ≠ (heap b).ID → (db.UpdateShop heap b).2.GetShop j = db.GetShop j) ∧
    (∀ id, (db.DeleteShop id).2.nextID = db.nextID) ∧
    (∀ b, (db.UpdateShop heap b).2.nextID = db.nextID) ∧
    (∀ id, (db.DeleteShop id).1 = .ok () →
      (db.DeleteShop id).2.entries.length + 1 = db.entries.length) ∧
    (∀ b id, (db.AddShop heap b).1 = .ok id → j ≠ id → db.GetShop j = .ok b →
      ((db.AddShop heap b).2.1.GetShop j).deref (db.AddShop heap b).2.2 =
        .ok { heap b with ID := id }) := by
  have hadd : ∀ b id, (db.AddShop heap b).1 = .ok id → j ≠ id →
      (db.AddShop heap b).2.1.GetShop j = db.GetShop j := by
    intro b id hok hne
    obtain ⟨nextID, shops⟩ := db
    cases shops with
    | none => simp [memoryDB.AddShop] at hok
    | some m =>
      rw [memoryDB_AddShop_open] at hok ⊢
      simp only [Res.ok.injEq] at hok
      subst hok
      simp [memoryDB.GetShop, memoryDB.index, AList.lookup_insert_ne hne]
  refine ⟨hadd, ?_, ?_, ?_, fun id => (memoryDB_DeleteShop_nextID db id).1,
    fun b => (memoryDB_UpdateShop_nextID db heap b).1, ?_, ?_⟩
  · intro b id p hok hne hget hpb
    rw [hadd b id hok hne, hget]
    obtain ⟨nextID, shops⟩ := db
    cases shops with
    | none => simp [memoryDB.AddShop] at hok
    | some m =>
      rw [memoryDB_AddShop_open]
      simp [Res.deref, Heap.set, hpb]
  · intro id hne
    obtain ⟨nextID, shops⟩ := db
    by_cases h0 : id = 0
    · simp [memoryDB.DeleteShop, h0]
    · cases hi : memoryDB.index ⟨nextID, shops⟩ id with
      | none => simp [memoryDB.DeleteShop, h0, hi]
      | some q =>
        cases shops with
        | none => simp [memoryDB.index] at hi
        | some m =>
          have hl : AList.lookup id m = some q := hi
          simp [memoryDB.DeleteShop, h0, hl, memoryDB.GetShop, memoryDB.index,
            AList.lookup_erase_ne hne]
  · intro b hne
    obtain ⟨nextID, shops⟩ := db
    by_cases h0 : (heap b).ID = 0
    · simp [memoryDB.UpdateShop, h0]
    · cases shops with
      | none => simp [memoryDB.UpdateShop, h0]
      | some m =>
        simp [memoryDB.UpdateShop, h0, memoryDB.GetShop, memoryDB.index,
          AList.lookup_insert_ne hne]
  · intro id hok
    obtain ⟨nextID, shops⟩ := db
    by_cases h0 : id = 0
    · simp [memoryDB.DeleteShop, h0] at hok
    · cases hi : memoryDB.index ⟨nextID, shops⟩ id with
      | none => simp [memoryDB.DeleteShop, h0, hi] at hok
      | some q =>
        cases shops with
        | none => simp [memoryDB.index] at hi
        | some m =>
          have hmem : id ∈ m := by
            rw [← AList.lookup_isSome]
            have hl0 : AList.lookup id m = some q := hi
            simp [hl0]
          have hlen := ShopMap_length_erase m id hmem
          have hl : AList.lookup id m = some q := hi
          simpa [memoryDB.DeleteShop, h0, hl, memoryDB.index, memoryDB.entries] using hlen
  · intro b id hok hne hget
    rw [hadd b id hok hne, hget]
    obtain ⟨nextID, shops⟩ := db
    cases shops with
    | none => simp [memoryDB.AddShop] at hok
    | some m =>
      rw [memoryDB_AddShop_open] at hok ⊢
      simp only [Res.ok.injEq] at hok
      subst hok
      simp [Res.deref, Heap.set]

/-- The shop stored under 2 across an AddShop, a DeleteShop(1) and an
UpdateShop of the shop stored under 1, and across an AddShop of the object
that is stored under 2. -/
theorem C17_mutators_frame_witness :
    (dbTwo.AddShop heapOne 5).2.1.GetShop 2 = dbTwo.GetShop 2 ∧
    ((dbTwo.AddShop heapOne 5).2.1.GetShop 2).deref (dbTwo.AddShop heapOne 5).2.2 =
      (dbTwo.GetShop 2).deref heapOne ∧
    (dbTwo.DeleteShop 1).2.GetShop 2 = dbTwo.GetShop 2 ∧
    (dbTwo.UpdateShop heapOne 0).2.GetShop 2 = dbTwo.GetShop 2 ∧
    (dbTwo.DeleteShop 1).2.entries.length + 1 = dbTwo.entries.length ∧
    ((dbTwo.AddShop heapOne 1).2.1.GetShop 2).deref (dbTwo.AddShop heapOne 1).2.2 =
      .ok { heapOne 1 with ID := 3 } :=
  ⟨(C17_mutators_frame dbTwo heapOne 2).1 5 3 (by decide) (by decide),
    (C17_mutators_frame dbTwo heapOne 2).2.1 5 3 1 (by decide) (by decide) (by decide)
      (by decide),
    (C17_mutators_frame dbTwo heapOne 2).2.2.1 1 (by decide),
    (C17_mutators_frame dbTwo heapOne 2).2.2.2.1 0 (by decide),
    (C17_mutators_frame dbTwo heapOne 2).2.2.2.2.2.2.1 1 (by decide),
    (C17_mutators_frame dbTwo heapOne 2).2.2.2.2.2.2.2 1 3 (by decide) (by decide)
      (by decide)⟩

end shopplace
